import Mathlib

/-!
# CVRP broker — verification of the coordination store and log inference engine

A shallow embedding of the CVRP broker (`backend/backend_server.py`) and of the
log-derived state inference pipeline (`frontend 2/app.py`), with theorems about
the request ledger, one-shot config mailbox, vehicle telemetry table and the
regex-driven log extractors.

Modelling conventions:
* JSON values are the inductive `Json`; Python truthiness is `Json.truthy`.
* Python `dict`s (which preserve insertion order, overwriting in place) are
  insertion-ordered association lists manipulated with `dictSet` / `dictGet`.
* `time.time()` is a caller-supplied rational parameter; floats that the code
  merely parses, stores and echoes are modelled as exact rationals.
* Fallible Python code (uncaught exceptions → HTTP 500) returns explicit
  error responses.
-/

namespace CVRP

/-- JSON values, as produced by Flask's `request.get_json()`. -/
inductive Json where
  | null : Json
  | bool : Bool → Json
  | num : ℚ → Json
  | str : String → Json
  | arr : List Json → Json
  | obj : List (String × Json) → Json
deriving Repr

mutual

/-- Structural equality of JSON values (Python `==` on parsed JSON). -/
def Json.beq : Json → Json → Bool
  | .null, .null => true
  | .bool a, .bool b => a == b
  | .num a, .num b => a == b
  | .str a, .str b => a == b
  | .arr a, .arr b => Json.beqList a b
  | .obj a, .obj b => Json.beqFields a b
  | _, _ => false

def Json.beqList : List Json → List Json → Bool
  | [], [] => true
  | a :: as, b :: bs => Json.beq a b && Json.beqList as bs
  | _, _ => false

def Json.beqFields : List (String × Json) → List (String × Json) → Bool
  | [], [] => true
  | (k, a) :: as, (l, b) :: bs => k == l && Json.beq a b && Json.beqFields as bs
  | _, _ => false

end

/-- Python truthiness of a JSON value (`if data:` etc.): `None`, `False`,
`0`, `""`, `[]` and `{}` are falsy. -/
def Json.truthy : Json → Bool
  | .null => false
  | .bool b => b
  | .num q => q != 0
  | .str s => s != ""
  | .arr xs => !xs.isEmpty
  | .obj fs => !fs.isEmpty

/-- `d.get(k)` on an insertion-ordered association list: first binding wins
(a Python dict has at most one binding per key). -/
def dictGet {α : Type} (fs : List (String × α)) (k : String) : Option α :=
  match fs with
  | [] => none
  | (k', v) :: rest => if k' = k then some v else dictGet rest k

/-- `d.get(k, dflt)`: the stored value when the key is present (even if the
value is `None`), the default only when the key is absent. -/
def dictGetD (fs : List (String × Json)) (k : String) (dflt : Json) : Json :=
  (dictGet fs k).getD dflt

/-- `d[k] = v` on a Python dict: overwrite in place when the key exists
(keeping its insertion position), append otherwise. -/
def dictSet {α : Type} (fs : List (String × α)) (k : String) (v : α) :
    List (String × α) :=
  match fs with
  | [] => [(k, v)]
  | (k', v') :: rest =>
      if k' = k then (k', v) :: rest else (k', v') :: dictSet rest k v

/-- `k in d` for a Python dict keyed by strings. -/
def dictHasKey {α : Type} (fs : List (String × α)) (k : String) : Bool :=
  match fs with
  | [] => false
  | (k', _) :: rest => k' == k || dictHasKey rest k

/-- Python's `needle in haystack` on two strings: substring containment. -/
def strContains (haystack needle : String) : Bool :=
  List.any (List.range (haystack.length + 1)) fun i =>
    (haystack.toList.drop i).take needle.length = needle.toList

/-- Python's `k in x` where `x` is an arbitrary JSON value and `k` a string:
key membership for a dict, substring for a string, element membership for a
list; `none` models the `TypeError` raised on numbers, booleans and `None`. -/
def pyContains (x : Json) (k : String) : Option Bool :=
  match x with
  | .obj fs => some (dictHasKey fs k)
  | .str s => some (strContains s k)
  | .arr xs => some (xs.any fun e => Json.beq e (.str k))
  | _ => none

/-- Python's `x[k]` with a string subscript: only works on a dict; `none`
models the `TypeError`/`KeyError` raised otherwise. -/
def pyGetItem (x : Json) (k : String) : Option Json :=
  match x with
  | .obj fs => dictGet fs k
  | _ => none

/-! ## The coordination store (`CVRPBackendServer`) -/

/-- Lifecycle status of a request, stored by the code as the strings
`'pending'`, `'processing'`, `'completed'`. -/
inductive ReqStatus where
  | pending
  | processing
  | completed
deriving Repr, DecidableEq

/-- The status string stored in `self.requests[...]['status']`. -/
def ReqStatus.toStr : ReqStatus → String
  | .pending => "pending"
  | .processing => "processing"
  | .completed => "completed"

/-- One entry of `self.requests`: `{'data': ..., 'status': ..., 'timestamp': ...}`. -/
structure ReqEntry where
  data : Json
  status : ReqStatus
  timestamp : ℚ
deriving Repr

/-- One entry of `self.solutions`: `{'solution': ..., 'timestamp': ...}`. -/
structure SolEntry where
  solution : Json
  timestamp : ℚ
deriving Repr

/-- One entry of `self.vehicle_positions`. -/
structure PosEntry where
  x : Json
  y : Json
  status : Json
  route_id : Json
  target_x : Json
  target_y : Json
  timestamp : ℚ
deriving Repr

/-- The stored one-shot fleet configuration
(`server.vehicle_config = {'vehicles': ..., 'depot': ...}`). -/
structure VehicleConfig where
  vehicles : List Json
  depot : Json
deriving Repr

/-- The mutable state of `CVRPBackendServer` (the fields the claims touch). -/
structure CVRPBackendServer where
  requests : List (String × ReqEntry)
  solutions : List (String × SolEntry)
  vehicle_positions : List (Json × PosEntry)
  vehicle_config : Option VehicleConfig
  vehicle_config_timestamp : Option ℚ
deriving Repr

/-- The freshly-constructed server (`CVRPBackendServer.__init__`). -/
def initServer : CVRPBackendServer :=
  { requests := [], solutions := [], vehicle_positions := []
    vehicle_config := none, vehicle_config_timestamp := none }

/-- `CVRPBackendServer.add_request`: insert `{'data': d, 'status': 'pending',
'timestamp': now}` under a freshly generated id (the id — `uuid.uuid4()` in
the code — is a parameter here) and return the id. -/
def add_request (st : CVRPBackendServer) (request_id : String) (d : Json)
    (now : ℚ) : String × CVRPBackendServer :=
  (request_id,
   { st with requests :=
       dictSet st.requests request_id ⟨d, .pending, now⟩ })

/-- Helper for `get_pending_request`: walk the ledger in insertion order,
flip the first `pending` entry to `processing` and return its id and data. -/
def claimFirstPending : List (String × ReqEntry) →
    Option (String × Json) × List (String × ReqEntry)
  | [] => (none, [])
  | (id, r) :: rest =>
      if r.status = .pending then
        (some (id, r.data), (id, { r with status := .processing }) :: rest)
      else
        let (res, rest') := claimFirstPending rest
        (res, (id, r) :: rest')

/-- `CVRPBackendServer.get_pending_request`: scan `self.requests` in
insertion order for the first entry with status `'pending'`, set its status
to `'processing'` and return `(req_id, req_data['data'])`; `(None, None)`
when no pending entry exists. -/
def get_pending_request (st : CVRPBackendServer) :
    Option (String × Json) × CVRPBackendServer :=
  let (res, reqs') := claimFirstPending st.requests
  (res, { st with requests := reqs' })

/-- `CVRPBackendServer.add_solution`: if the id is a known request, set its
status to `'completed'` and (over)write `self.solutions[id]`, returning
`True`; otherwise return `False` without mutating anything. -/
def add_solution (st : CVRPBackendServer) (request_id : String)
    (solution_data : Json) (now : ℚ) : Bool × CVRPBackendServer :=
  if dictHasKey st.requests request_id then
    (true,
     { st with
         requests :=
           (st.requests.map fun (id, r) =>
             if id = request_id then (id, { r with status := .completed })
             else (id, r))
         solutions := dictSet st.solutions request_id ⟨solution_data, now⟩ })
  else
    (false, st)

/-- `CVRPBackendServer.get_solution`. -/
def get_solution (st : CVRPBackendServer) (request_id : String) : Option Json :=
  (dictGet st.solutions request_id).map SolEntry.solution

/-! ## HTTP handlers (Flask routes)

An HTTP response is a status code together with a JSON body; `noContent` is
the bodyless 204. Uncaught Python exceptions become Flask 500 responses; the
`str(e)` text of a 500 body is not modelled, only the fact of the error. -/

inductive Resp where
  | ok (body : Json)
  | accepted (body : Json)
  | noContent
  | badRequest (body : Json)
  | notFound (body : Json)
  | serverError
deriving Repr

/-- A `{'error': msg}` body. -/
def errBody (msg : String) : Json := .obj [("error", .str msg)]

/-- `GET /api/solve-cvrp` (`poll_request`): with `action=poll` (the default)
return the claimed pending request as 200, or 204 when there is none; any
other action is a 400. Note the Python truthiness guard `if req_id and
req_data`: the store is mutated by `get_pending_request` even when the
response ends up being 204. -/
def poll_request (action : Option String) (st : CVRPBackendServer) :
    Resp × CVRPBackendServer :=
  if action.getD "poll" = "poll" then
    let (r, st') := get_pending_request st
    match r with
    | some (req_id, req_data) =>
        if req_id ≠ "" ∧ req_data.truthy then
          (.ok (.obj [("request_id", .str req_id), ("data", req_data)]), st')
        else
          (.noContent, st')
    | none => (.noContent, st')
  else
    (.badRequest (errBody "Invalid action"), st)

/-- Membership checks `'id' not in customer or 'demand' not in customer or
'x' not in customer or 'y' not in customer`; `none` models a `TypeError`. -/
def validateCustomer (c : Json) : Option Bool :=
  match pyContains c "id", pyContains c "demand",
        pyContains c "x", pyContains c "y" with
  | some a, some b, some x, some y => some (a && b && x && y)
  | _, _, _, _ => none

/-- Outcome of the `for i, customer in enumerate(...)` validation loop. -/
inductive CustCheck where
  | allOk
  | failAt (i : ℕ)
  | raised
deriving Repr, DecidableEq

def checkCustomers : List Json → ℕ → CustCheck
  | [], _ => .allOk
  | c :: cs, i =>
      match validateCustomer c with
      | none => .raised
      | some false => .failAt i
      | some true => checkCustomers cs (i + 1)

/-- `POST /api/solve-cvrp` (`submit_solution`): with `action=response` the
body is a solution from an agent, attached via `add_solution`; otherwise the
body is a new CVRP request, validated and inserted via `add_request`.
`body = none` models `request.get_json()` yielding no JSON. The fresh
`uuid.uuid4()` id is the parameter `fresh_id`. -/
def submit_solution (action : Option String) (body : Option Json)
    (fresh_id : String) (now : ℚ) (st : CVRPBackendServer) :
    Resp × CVRPBackendServer :=
  if action = some "response" then
    match body with
    | none => (.badRequest (errBody "No JSON data provided"), st)
    | some data =>
      if ¬ data.truthy then (.badRequest (errBody "No JSON data provided"), st)
      else
        match data with
        | .obj fs =>
            let rid := (dictGet fs "request_id").getD .null
            if ¬ rid.truthy then
              (.badRequest (errBody "Missing request_id"), st)
            else
              match rid with
              | .str s =>
                  let (success, st') := add_solution st s data now
                  if success then
                    (.ok (.obj [("status", .str "success"),
                                ("message", .str "Solution received")]), st')
                  else
                    (.badRequest (errBody "Invalid request_id"), st)
              | .arr _ => (.serverError, st)  -- unhashable key: TypeError
              | .obj _ => (.serverError, st)  -- unhashable key: TypeError
              | _ =>
                  -- truthy number/bool: hashable but never a ledger key
                  (.badRequest (errBody "Invalid request_id"), st)
        | _ => (.serverError, st)  -- `.get` on a non-dict: AttributeError
  else
    match body with
    | none => (.badRequest (errBody "No JSON data provided"), st)
    | some data =>
      if ¬ data.truthy then (.badRequest (errBody "No JSON data provided"), st)
      else
        match pyContains data "customers" with
        | none => (.serverError, st)
        | some false =>
            (.badRequest
              (errBody "Missing or invalid field: customers (must be array)"),
             st)
        | some true =>
          match pyGetItem data "customers" with
          | none => (.serverError, st)  -- subscript on a non-dict
          | some v =>
            match v with
            | .arr cs =>
              match checkCustomers cs 0 with
              | .raised => (.serverError, st)
              | .failAt i =>
                  (.badRequest
                    (errBody ("Customer " ++ toString i ++
                              " must have: id, demand, x, y")), st)
              | .allOk =>
                  let (rid, st') := add_request st fresh_id data now
                  (.accepted
                    (.obj [("request_id", .str rid),
                           ("status", .str "submitted"),
                           ("message", .str
                             "Request submitted successfully. Use polling to check for solution.")]),
                   st')
            | _ =>
                (.badRequest
                  (errBody "Missing or invalid field: customers (must be array)"),
                 st)

/-- `GET /api/solution/<request_id>` (`get_solution_status`): 404 for an
unknown id; `{'status': 'completed', 'solution': ...}` once a solution is
stored; the ledger status string otherwise. Read-only. -/
def get_solution_status (request_id : String) (st : CVRPBackendServer) : Resp :=
  match dictGet st.requests request_id with
  | none => .notFound (errBody "Request not found")
  | some request_info =>
    match get_solution st request_id with
    | some sol =>
        .ok (.obj [("request_id", .str request_id),
                   ("status", .str "completed"),
                   ("solution", sol)])
    | none =>
        .ok (.obj [("request_id", .str request_id),
                   ("status", .str request_info.status.toStr)])

/-- Checks `'name' not in v or 'capacity' not in v or 'maxDistance' not in v`. -/
def validateVehicle (v : Json) : Option Bool :=
  match pyContains v "name", pyContains v "capacity",
        pyContains v "maxDistance" with
  | some a, some b, some c => some (a && b && c)
  | _, _, _ => none

def checkVehicles : List Json → CustCheck
  | [] => .allOk
  | v :: vs =>
      match validateVehicle v with
      | none => .raised
      | some false => .failAt 0
      | some true => checkVehicles vs

/-- The `[v['name'] for v in vehicles]` comprehension (and the print loop's
`v['capacity']`/`v['maxDistance']` accesses); `none` models the `TypeError`
raised by a string subscript on a non-dict vehicle. -/
def vehicleNames : List Json → Option (List Json)
  | [] => some []
  | v :: vs =>
      match v with
      | .obj fs =>
          match dictGet fs "name", dictGet fs "capacity",
                dictGet fs "maxDistance" with
          | some n, some _, some _ => (vehicleNames vs).map (n :: ·)
          | _, _, _ => none  -- KeyError (unreachable after validation)
      | _ => none

/-- `POST /api/vehicles/confirm` (`confirm_vehicles`): validate the vehicle
list, store the one-shot config `{'vehicles': vehicles, 'depot':
data.get('depot', {'name': 'Depot', 'x': 0.0, 'y': 0.0})}`, stamp the time,
and echo the vehicle names. The name-echoing runs after the store, so a
vehicle entry that passes the membership checks but is not a dict raises
with the config already stored. -/
def confirm_vehicles (body : Option Json) (now : ℚ) (st : CVRPBackendServer) :
    Resp × CVRPBackendServer :=
  match body with
  | none => (.badRequest (errBody "Invalid request - vehicles required"), st)
  | some data =>
    if ¬ data.truthy then
      (.badRequest (errBody "Invalid request - vehicles required"), st)
    else
      match pyContains data "vehicles" with
      | none => (.serverError, st)
      | some false =>
          (.badRequest (errBody "Invalid request - vehicles required"), st)
      | some true =>
        match pyGetItem data "vehicles" with
        | none => (.serverError, st)
        | some v =>
          match v with
          | .arr vehicles =>
            if vehicles.isEmpty then
              (.badRequest (errBody "At least one vehicle required"), st)
            else
              match checkVehicles vehicles with
              | .raised => (.serverError, st)
              | .failAt _ =>
                  (.badRequest
                    (errBody "Each vehicle must have: name, capacity, maxDistance"),
                   st)
              | .allOk =>
                let depot :=
                  match data with
                  | .obj fs => dictGetD fs "depot"
                      (.obj [("name", .str "Depot"), ("x", .num 0), ("y", .num 0)])
                  | _ => .null  -- unreachable: pyGetItem succeeded, so data is a dict
                let st' := { st with
                  vehicle_config := some ⟨vehicles, depot⟩
                  vehicle_config_timestamp := some now }
                match vehicleNames vehicles with
                | none => (.serverError, st')  -- raised after the store
                | some names =>
                    (.ok (.obj [("success", .bool true),
                                ("message", .str (toString vehicles.length ++
                                  " vehicles confirmed. Agents will be created.")),
                                ("vehicles", .arr names)]), st')
          | _ => (.badRequest (errBody "At least one vehicle required"), st)

/-- `timestamp` field of the poll-config body: `None` serialises to null. -/
def jsonOfOptQ : Option ℚ → Json
  | none => .null
  | some t => .num t

/-- `d[k] = v` on the vehicle-telemetry dict, whose keys are arbitrary JSON
values (`Json.beq` stands in for Python `==` on hashable JSON keys). -/
def jdictSet (fs : List (Json × PosEntry)) (k : Json) (v : PosEntry) :
    List (Json × PosEntry) :=
  match fs with
  | [] => [(k, v)]
  | (k', v') :: rest =>
      if Json.beq k' k then (k', v) :: rest else (k', v') :: jdictSet rest k v

/-- `POST /api/movement/update` (`update_vehicle_position`): requires a JSON
body whose `vehicle_name` is truthy; every other telemetry field is read
with a `.get` default (`x`/`y` default `0.0`, `status` default `'idle'`,
`route_id`/`target_x`/`target_y` default `None` — defaults apply only when
the key is absent) and the entry overwrites the vehicle's previous one. An
unhashable (list/dict) vehicle name raises, a non-dict body raises. -/
def update_vehicle_position (body : Option Json) (now : ℚ)
    (st : CVRPBackendServer) : Resp × CVRPBackendServer :=
  match body with
  | none => (.badRequest (errBody "No JSON data provided"), st)
  | some data =>
    if ¬ data.truthy then (.badRequest (errBody "No JSON data provided"), st)
    else
      match data with
      | .obj fs =>
          let vehicle_name := (dictGet fs "vehicle_name").getD .null
          if ¬ vehicle_name.truthy then
            (.badRequest (errBody "vehicle_name required"), st)
          else
            match vehicle_name with
            | .arr _ => (.serverError, st)  -- unhashable dict key
            | .obj _ => (.serverError, st)  -- unhashable dict key
            | _ =>
                let position_data : PosEntry :=
                  { x := dictGetD fs "x" (.num 0)
                    y := dictGetD fs "y" (.num 0)
                    status := dictGetD fs "status" (.str "idle")
                    route_id := dictGetD fs "route_id" .null
                    target_x := dictGetD fs "target_x" .null
                    target_y := dictGetD fs "target_y" .null
                    timestamp := now }
                (.ok (.obj [("success", .bool true),
                            ("vehicle", vehicle_name)]),
                 { st with vehicle_positions :=
                     jdictSet st.vehicle_positions vehicle_name position_data })
      | _ => (.serverError, st)  -- `.get` on a non-dict: AttributeError

/-- `GET /api/vehicles/poll-config` (`poll_vehicle_config`): 204 when no
config is stored; otherwise return the config and clear the slot
(`server.vehicle_config = None` — the timestamp field is left in place). -/
def poll_vehicle_config (st : CVRPBackendServer) : Resp × CVRPBackendServer :=
  match st.vehicle_config with
  | none => (.noContent, st)
  | some config =>
      (.ok (.obj [("vehicles", .arr config.vehicles),
                  ("depot", config.depot),
                  ("timestamp", jsonOfOptQ st.vehicle_config_timestamp)]),
       { st with vehicle_config := none })

/-! ## Dictionary and ledger lemmas (shared) -/

theorem dictGet_dictSet_self {α : Type} (l : List (String × α)) (k : String)
    (v : α) : dictGet (dictSet l k v) k = some v := by
  induction l with
  | nil => simp [dictSet, dictGet]
  | cons p rest ih =>
      obtain ⟨k', v'⟩ := p
      by_cases h : k' = k
      · simp [dictSet, dictGet, h]
      · simp [dictSet, dictGet, h, ih]

theorem dictGet_dictSet_ne {α : Type} (l : List (String × α)) (k k' : String)
    (v : α) (h : k' ≠ k) : dictGet (dictSet l k v) k' = dictGet l k' := by
  have hne : k ≠ k' := fun hh => h hh.symm
  induction l with
  | nil => simp [dictSet, dictGet, hne]
  | cons p rest ih =>
      obtain ⟨k0, v0⟩ := p
      by_cases h0 : k0 = k
      · subst h0
        simp [dictSet, dictGet, hne]
      · simp [dictSet, dictGet, h0, ih]

theorem dictSet_fresh {α : Type} (l : List (String × α)) (k : String) (v : α)
    (h : dictGet l k = none) : dictSet l k v = l ++ [(k, v)] := by
  induction l with
  | nil => simp [dictSet]
  | cons p rest ih =>
      obtain ⟨k0, v0⟩ := p
      by_cases h0 : k0 = k
      · simp [dictGet, h0] at h
      · simp [dictGet, h0] at h
        simp [dictSet, h0, ih h]

theorem dictGet_append_left_none {α : Type} (l l' : List (String × α))
    (k : String) (h : dictGet l k = none) :
    dictGet (l ++ l') k = dictGet l' k := by
  induction l with
  | nil => simp
  | cons p rest ih =>
      obtain ⟨k0, v0⟩ := p
      by_cases h0 : k0 = k
      · simp [dictGet, h0] at h
      · simp [dictGet, h0] at h ⊢
        exact ih h

theorem dictHasKey_eq_isSome {α : Type} (l : List (String × α)) (k : String) :
    dictHasKey l k = (dictGet l k).isSome := by
  induction l with
  | nil => simp [dictHasKey, dictGet]
  | cons p rest ih =>
      obtain ⟨k0, v0⟩ := p
      by_cases h0 : k0 = k
      · simp [dictHasKey, dictGet, h0]
      · simp [dictHasKey, dictGet, h0, ih]

theorem dictGet_none_iff_not_memKeys {α : Type} (l : List (String × α))
    (k : String) : dictGet l k = none ↔ k ∉ l.map Prod.fst := by
  induction l with
  | nil => simp [dictGet]
  | cons p rest ih =>
      obtain ⟨k0, v0⟩ := p
      by_cases h0 : k0 = k
      · simp [dictGet, h0]
      · simp [dictGet, h0, ih, Ne.symm h0]

theorem dictGet_mapVal {α : Type} (f : String → α → α) (l : List (String × α))
    (k : String) :
    dictGet (l.map fun p => (p.1, f p.1 p.2)) k = (dictGet l k).map (f k) := by
  induction l with
  | nil => simp [dictGet]
  | cons p rest ih =>
      obtain ⟨k0, v0⟩ := p
      by_cases h0 : k0 = k
      · subst h0; simp [dictGet, ih]
      · simp [dictGet, h0, ih]

theorem keys_mapVal {α : Type} (f : String → α → α) (l : List (String × α)) :
    (l.map fun p => (p.1, f p.1 p.2)).map Prod.fst = l.map Prod.fst := by
  induction l with
  | nil => rfl
  | cons p rest ih => simp [ih]

theorem claimFirstPending_cons_pending (id : String) (r : ReqEntry)
    (rest : List (String × ReqEntry)) (h : r.status = .pending) :
    claimFirstPending ((id, r) :: rest) =
      (some (id, r.data), (id, { r with status := .processing }) :: rest) := by
  simp [claimFirstPending, h]

theorem claimFirstPending_cons_other (id : String) (r : ReqEntry)
    (rest : List (String × ReqEntry)) (h : r.status ≠ .pending) :
    claimFirstPending ((id, r) :: rest) =
      ((claimFirstPending rest).1, (id, r) :: (claimFirstPending rest).2) := by
  rcases hE : claimFirstPending rest with ⟨a, b⟩
  simp [claimFirstPending, h, hE]

/-- When no entry is pending, the claim scan returns nothing and the ledger
is returned unchanged. -/
theorem claimFirstPending_none (l : List (String × ReqEntry))
    (h : ∀ p ∈ l, p.2.status ≠ .pending) : claimFirstPending l = (none, l) := by
  induction l with
  | nil => rfl
  | cons p rest ih =>
      obtain ⟨id, r⟩ := p
      have hr : r.status ≠ .pending := h (id, r) (List.mem_cons_self _ _)
      have hrest : ∀ q ∈ rest, q.2.status ≠ .pending :=
        fun q hq => h q (List.mem_cons_of_mem _ hq)
      simp [claimFirstPending_cons_other _ _ _ hr, ih hrest]

/-- The claim scan finds the first pending entry and flips exactly it. -/
theorem claimFirstPending_split (pre : List (String × ReqEntry)) (id : String)
    (r : ReqEntry) (post : List (String × ReqEntry))
    (hpre : ∀ p ∈ pre, p.2.status ≠ .pending) (hr : r.status = .pending) :
    claimFirstPending (pre ++ (id, r) :: post) =
      (some (id, r.data),
       pre ++ (id, { r with status := .processing }) :: post) := by
  induction pre with
  | nil => simp [claimFirstPending, hr]
  | cons p rest ih =>
      obtain ⟨id0, r0⟩ := p
      have hr0 : r0.status ≠ .pending := hpre (id0, r0) (List.mem_cons_self _ _)
      have hrest : ∀ q ∈ rest, q.2.status ≠ .pending :=
        fun q hq => hpre q (List.mem_cons_of_mem _ hq)
      simp [List.cons_append, claimFirstPending_cons_other _ _ _ hr0, ih hrest]

/-- The claim scan never reorders, inserts or drops ledger entries: keys are
preserved, and every entry keeps its data while its status either stays or
moves from pending to processing. -/
theorem claimFirstPending_entry (l : List (String × ReqEntry)) (k : String)
    (r : ReqEntry) (h : dictGet l k = some r) :
    ∃ r', dictGet (claimFirstPending l).2 k = some r' ∧ r'.data = r.data ∧
      (r' = r ∨ (r.status = .pending ∧ r' = { r with status := .processing })) := by
  induction l with
  | nil => simp [dictGet] at h
  | cons p rest ih =>
      obtain ⟨k0, r0⟩ := p
      by_cases h0 : k0 = k
      · subst h0
        have hr : r0 = r := by simpa [dictGet] using h
        subst hr
        by_cases hp : r0.status = .pending
        · refine ⟨{ r0 with status := .processing }, ?_, rfl, Or.inr ⟨hp, rfl⟩⟩
          simp [claimFirstPending_cons_pending _ _ _ hp, dictGet]
        · refine ⟨r0, ?_, rfl, Or.inl rfl⟩
          simp [claimFirstPending_cons_other _ _ _ hp, dictGet]
      · simp [dictGet, h0] at h
        by_cases hp : r0.status = .pending
        · refine ⟨r, ?_, rfl, Or.inl rfl⟩
          simp [claimFirstPending_cons_pending _ _ _ hp, dictGet, h0, h]
        · obtain ⟨r', hget, hdata, hcase⟩ := ih h
          refine ⟨r', ?_, hdata, hcase⟩
          simpa [claimFirstPending_cons_other _ _ _ hp, dictGet, h0] using hget

theorem claimFirstPending_keys (l : List (String × ReqEntry)) :
    (claimFirstPending l).2.map Prod.fst = l.map Prod.fst := by
  induction l with
  | nil => rfl
  | cons p rest ih =>
      obtain ⟨k0, r0⟩ := p
      by_cases hp : r0.status = .pending
      · simp [claimFirstPending_cons_pending _ _ _ hp]
      · simp [claimFirstPending_cons_other _ _ _ hp, ih]

/-! ## C2 — ClaimNext claims the oldest pending request, 204 otherwise -/

/-- C2: for every ledger state, `get_pending_request` (ClaimNext) returns the
oldest — first in insertion order — request whose status is pending and
transitions exactly that request's status to processing, leaving every other
entry untouched; when no pending request exists it returns `(None, None)`,
mutates no request, and the `poll_request` handler answers with the bodyless
204 No Content (a normal response, not an error). -/
theorem claimNext_oldest_pending :
    (∀ (st : CVRPBackendServer) (pre : List (String × ReqEntry)) (id : String)
       (r : ReqEntry) (post : List (String × ReqEntry)),
       st.requests = pre ++ (id, r) :: post →
       r.status = .pending →
       (∀ p ∈ pre, p.2.status ≠ .pending) →
       get_pending_request st =
         (some (id, r.data),
          { st with requests :=
              pre ++ (id, { r with status := .processing }) :: post })) ∧
    (∀ st : CVRPBackendServer, (∀ p ∈ st.requests, p.2.status ≠ .pending) →
       get_pending_request st = (none, st) ∧
       poll_request (some "poll") st = (.noContent, st)) := by
  constructor
  · intro st pre id r post hsplit hr hpre
    simp [get_pending_request, hsplit, claimFirstPending_split pre id r post hpre hr]
  · intro st hnone
    have h1 : get_pending_request st = (none, st) := by
      simp [get_pending_request, claimFirstPending_none st.requests hnone]
    refine ⟨h1, ?_⟩
    simp [poll_request, h1]

/-- A concrete three-request ledger: `a` completed, `b` and `c` pending. -/
def c2Ledger : CVRPBackendServer :=
  { initServer with requests :=
      [("a", ⟨.str "payA", .completed, 0⟩),
       ("b", ⟨.str "payB", .pending, 1⟩),
       ("c", ⟨.str "payC", .pending, 2⟩)] }

/-- A ledger with no pending request. -/
def c2Drained : CVRPBackendServer :=
  { initServer with requests :=
      [("a", ⟨.str "payA", .completed, 0⟩),
       ("b", ⟨.str "payB", .processing, 1⟩)] }

theorem claimNext_oldest_pending_witness :
    get_pending_request c2Ledger =
      (some ("b", .str "payB"),
       { c2Ledger with requests :=
           [("a", ⟨.str "payA", .completed, 0⟩),
            ("b", ⟨.str "payB", .processing, 1⟩),
            ("c", ⟨.str "payC", .pending, 2⟩)] }) ∧
    get_pending_request c2Drained = (none, c2Drained) ∧
    poll_request (some "poll") c2Drained = (.noContent, c2Drained) := by
  have h1 := claimNext_oldest_pending.1 c2Ledger
    [("a", ⟨.str "payA", .completed, 0⟩)] "b" ⟨.str "payB", .pending, 1⟩
    [("c", ⟨.str "payC", .pending, 2⟩)] rfl rfl
    (by intro p hp; simp at hp; subst hp; simp [ReqStatus.completed])
  have h2 := claimNext_oldest_pending.2 c2Drained
    (by intro p hp; simp [c2Drained, initServer] at hp
        rcases hp with h | h <;> subst h <;> simp)
  exact ⟨h1, h2.1, h2.2⟩

/-! ## C3 — request lifecycle round trip -/

/-- C3: sequentially, from any state with no pending request (so the freshly
submitted request is the oldest pending one) and a fresh id: after
`add_request` the status query reports pending; `get_pending_request` then
claims exactly that request and the query reports processing; a subsequent
`add_solution` succeeds and the query reports completed together with
exactly the submitted solution object. -/
theorem request_round_trip (st : CVRPBackendServer) (id : String) (d S : Json)
    (t1 t2 : ℚ)
    (hfreshReq : dictGet st.requests id = none)
    (hfreshSol : dictGet st.solutions id = none)
    (hnopend : ∀ p ∈ st.requests, p.2.status ≠ .pending) :
    (add_request st id d t1).1 = id ∧
    get_solution_status id (add_request st id d t1).2 =
      .ok (.obj [("request_id", .str id), ("status", .str "pending")]) ∧
    (get_pending_request (add_request st id d t1).2).1 = some (id, d) ∧
    get_solution_status id (get_pending_request (add_request st id d t1).2).2 =
      .ok (.obj [("request_id", .str id), ("status", .str "processing")]) ∧
    (add_solution (get_pending_request (add_request st id d t1).2).2 id S t2).1
      = true ∧
    get_solution_status id
      (add_solution (get_pending_request (add_request st id d t1).2).2 id S t2).2
      = .ok (.obj [("request_id", .str id), ("status", .str "completed"),
                   ("solution", S)]) := by
  have hreq1 : (add_request st id d t1).2.requests
      = st.requests ++ [(id, ⟨d, .pending, t1⟩)] := by
    simp [add_request, dictSet_fresh _ _ _ hfreshReq]
  have hget1 : dictGet (add_request st id d t1).2.requests id
      = some ⟨d, .pending, t1⟩ := by
    rw [hreq1, dictGet_append_left_none _ _ _ hfreshReq]
    simp [dictGet]
  have hsol1 : (add_request st id d t1).2.solutions = st.solutions := by
    simp [add_request]
  have hclaim : get_pending_request (add_request st id d t1).2
      = (some (id, d),
         { (add_request st id d t1).2 with requests :=
             st.requests ++ [(id, ⟨d, .processing, t1⟩)] }) := by
    have := claimFirstPending_split st.requests id ⟨d, .pending, t1⟩ [] hnopend rfl
    simp [get_pending_request, hreq1, this]
  have hget2 : dictGet (get_pending_request (add_request st id d t1).2).2.requests id
      = some ⟨d, .processing, t1⟩ := by
    rw [hclaim]
    simp [dictGet_append_left_none _ _ _ hfreshReq, dictGet]
  have hsol2 : (get_pending_request (add_request st id d t1).2).2.solutions
      = st.solutions := by
    rw [hclaim]
    simp [hsol1]
  have hhas2 : dictHasKey (get_pending_request (add_request st id d t1).2).2.requests id
      = true := by
    rw [dictHasKey_eq_isSome, hget2]
    rfl
  have hrep : (add_solution (get_pending_request (add_request st id d t1).2).2 id S t2)
      = (true,
         { (get_pending_request (add_request st id d t1).2).2 with
             requests :=
               ((get_pending_request (add_request st id d t1).2).2.requests.map
                 fun (p : String × ReqEntry) =>
                   if p.1 = id then (p.1, { p.2 with status := .completed })
                   else (p.1, p.2))
             solutions := dictSet st.solutions id ⟨S, t2⟩ }) := by
    simp [add_solution, hhas2, hsol2]
  have hget3 : dictGet (add_solution (get_pending_request (add_request st id d t1).2).2 id S t2).2.requests id
      = some ⟨d, .completed, t1⟩ := by
    rw [hrep]
    have := dictGet_mapVal
      (fun k r => if k = id then { r with status := .completed } else r)
      (get_pending_request (add_request st id d t1).2).2.requests id
    simp only [hget2, Option.map_some] at this
    simp only []
    rw [show ((get_pending_request (add_request st id d t1).2).2.requests.map
          fun (p : String × ReqEntry) =>
            if p.1 = id then (p.1, { p.2 with status := .completed })
            else (p.1, p.2))
        = ((get_pending_request (add_request st id d t1).2).2.requests.map
          fun (p : String × ReqEntry) =>
            (p.1, if p.1 = id then { p.2 with status := .completed } else p.2))
      from by
        apply List.map_congr_left
        intro p _
        by_cases hp : p.1 = id <;> simp [hp]]
    rw [this]
    simp
  refine ⟨rfl, ?_, ?_, ?_, ?_, ?_⟩
  · simp [get_solution_status, hget1, get_solution, hsol1, hfreshSol,
      ReqStatus.toStr]
  · rw [hclaim]
  · simp [get_solution_status, hget2, get_solution, hsol2, hfreshSol,
      ReqStatus.toStr]
  · rw [hrep]
  · have hs : get_solution
        (add_solution (get_pending_request (add_request st id d t1).2).2 id S t2).2 id
        = some S := by
      rw [hrep]
      simp [get_solution, dictGet_dictSet_self]
    simp [get_solution_status, hget3, hs]

theorem request_round_trip_witness :
    (add_request initServer "id-1" (.str "cvrp") 0).1 = "id-1" ∧
    get_solution_status "id-1" (add_request initServer "id-1" (.str "cvrp") 0).2 =
      .ok (.obj [("request_id", .str "id-1"), ("status", .str "pending")]) ∧
    (get_pending_request (add_request initServer "id-1" (.str "cvrp") 0).2).1
      = some ("id-1", .str "cvrp") ∧
    get_solution_status "id-1"
      (get_pending_request (add_request initServer "id-1" (.str "cvrp") 0).2).2 =
      .ok (.obj [("request_id", .str "id-1"), ("status", .str "processing")]) ∧
    (add_solution (get_pending_request (add_request initServer "id-1" (.str "cvrp") 0).2).2
      "id-1" (.str "sol") 1).1 = true ∧
    get_solution_status "id-1"
      (add_solution (get_pending_request (add_request initServer "id-1" (.str "cvrp") 0).2).2
        "id-1" (.str "sol") 1).2 =
      .ok (.obj [("request_id", .str "id-1"), ("status", .str "completed"),
                 ("solution", .str "sol")]) :=
  request_round_trip initServer "id-1" (.str "cvrp") (.str "sol") 0 1
    rfl rfl (by intro p hp; simp [initServer] at hp)

/-! ## C4 — duplicate solution reports: the code is last-writer-wins -/

/-- A ledger holding the single request `r1`, currently processing. -/
def c4State : CVRPBackendServer :=
  { initServer with requests := [("r1", ⟨.str "payload", .processing, 0⟩)] }

/-- First reported solution for `r1`. -/
def c4S1 : Json := .obj [("request_id", .str "r1"), ("route", .str "A")]

/-- Second reported solution for `r1`. -/
def c4S2 : Json := .obj [("request_id", .str "r1"), ("route", .str "B")]

/-- C4 counterexample: reporting `S1` and then `S2` for the same request id
leaves the stored solution equal to `S2`, not `S1` — `add_solution`
unconditionally overwrites `self.solutions[request_id]`, so the second
writer wins, contrary to the claimed first-writer-wins idempotence (both
calls do report success, as claimed). -/
theorem report_solution_overwrites_counterexample :
    (add_solution c4State "r1" c4S1 1).1 = true ∧
    (add_solution (add_solution c4State "r1" c4S1 1).2 "r1" c4S2 2).1 = true ∧
    get_solution (add_solution (add_solution c4State "r1" c4S1 1).2 "r1" c4S2 2).2
      "r1" = some c4S2 ∧
    c4S2 ≠ c4S1 := by
  refine ⟨rfl, rfl, rfl, ?_⟩
  intro h
  injection h with h1
  simp [List.cons_eq_cons] at h1

/-- C4 amended: for every request id present in the ledger, calling
`add_solution (id, S1)` and then `add_solution (id, S2)` reports success
both times and leaves the stored solution equal to `S2`: the second call
overwrites the first (last-writer-wins, not first-writer-wins). -/
theorem report_solution_last_writer_wins (st : CVRPBackendServer) (id : String)
    (S1 S2 : Json) (t1 t2 : ℚ)
    (h : dictHasKey st.requests id = true) :
    (add_solution st id S1 t1).1 = true ∧
    (add_solution (add_solution st id S1 t1).2 id S2 t2).1 = true ∧
    get_solution (add_solution (add_solution st id S1 t1).2 id S2 t2).2 id
      = some S2 := by
  have unfoldSol : ∀ (st' : CVRPBackendServer) (s : Json) (t : ℚ),
      dictHasKey st'.requests id = true →
      add_solution st' id s t
        = (true, { st' with
            requests := st'.requests.map fun (p : String × ReqEntry) =>
              if p.1 = id then (p.1, { p.2 with status := .completed })
              else (p.1, p.2)
            solutions := dictSet st'.solutions id ⟨s, t⟩ }) := by
    intro st' s t h'
    simp [add_solution, h']
  have hmapkeys : ∀ l : List (String × ReqEntry),
      dictHasKey (l.map fun (p : String × ReqEntry) =>
        if p.1 = id then (p.1, { p.2 with status := ReqStatus.completed })
        else (p.1, p.2)) id = dictHasKey l id := by
    intro l
    have hmap : (l.map fun (p : String × ReqEntry) =>
          if p.1 = id then (p.1, { p.2 with status := ReqStatus.completed })
          else (p.1, p.2))
        = (l.map fun (p : String × ReqEntry) =>
          (p.1, if p.1 = id then { p.2 with status := ReqStatus.completed }
                else p.2)) := by
      apply List.map_congr_left
      intro p _
      by_cases hp : p.1 = id <;> simp [hp]
    rw [hmap, dictHasKey_eq_isSome, dictHasKey_eq_isSome,
      dictGet_mapVal (fun k r =>
        if k = id then { r with status := ReqStatus.completed } else r) l id]
    rcases dictGet l id with _ | r <;> rfl
  have hkeys : dictHasKey (add_solution st id S1 t1).2.requests id = true := by
    rw [unfoldSol st S1 t1 h]
    simpa [hmapkeys st.requests] using h
  refine ⟨by rw [unfoldSol st S1 t1 h], by rw [unfoldSol _ S2 t2 hkeys], ?_⟩
  rw [unfoldSol _ S2 t2 hkeys, get_solution]
  simp [dictGet_dictSet_self]

theorem report_solution_last_writer_wins_witness :
    (add_solution c2Drained "b" (.str "first") 1).1 = true ∧
    (add_solution (add_solution c2Drained "b" (.str "first") 1).2 "b"
      (.str "second") 2).1 = true ∧
    get_solution (add_solution (add_solution c2Drained "b" (.str "first") 1).2
      "b" (.str "second") 2).2 "b" = some (.str "second") :=
  report_solution_last_writer_wins c2Drained "b" (.str "first") (.str "second")
    1 2 rfl

/-! ## C5 — status-transition invariant -/

/-- The three mutating operations of the coordination store. For `submit`,
the fresh `uuid.uuid4()` id is a parameter; well-formedness (`StoreOp.wf`)
records the uuid-freshness assumption. -/
inductive StoreOp where
  | submit (id : String) (d : Json) (t : ℚ)
  | claim
  | report (id : String) (s : Json) (t : ℚ)

def StoreOp.apply : StoreOp → CVRPBackendServer → CVRPBackendServer
  | .submit id d t, st => (add_request st id d t).2
  | .claim, st => (get_pending_request st).2
  | .report id s t, st => (add_solution st id s t).2

def StoreOp.wf : StoreOp → CVRPBackendServer → Prop
  | .submit id _ _, st => dictGet st.requests id = none
  | .claim, _ => True
  | .report _ _ _, _ => True

/-- Position of a status in the lifecycle order pending < processing <
completed. -/
def ReqStatus.rank : ReqStatus → ℕ
  | .pending => 0
  | .processing => 1
  | .completed => 2

theorem ReqStatus.rank_le_two (s : ReqStatus) : s.rank ≤ 2 := by
  cases s <;> simp [ReqStatus.rank]

/-- Normalisation of the status-overwriting map used by `add_solution`. -/
theorem completedMap_eq (id : String) (l : List (String × ReqEntry)) :
    (l.map fun (p : String × ReqEntry) =>
      if p.1 = id then (p.1, { p.2 with status := ReqStatus.completed })
      else (p.1, p.2))
    = l.map fun (p : String × ReqEntry) =>
        (p.1, if p.1 = id then { p.2 with status := ReqStatus.completed }
              else p.2) := by
  apply List.map_congr_left
  intro p _
  by_cases hp : p.1 = id <;> simp [hp]

/-- A ledger holding the single pending request `p1`. -/
def c5State : CVRPBackendServer :=
  { initServer with requests := [("p1", ⟨.str "payload", .pending, 0⟩)] }

/-- C5 counterexample: the claim allows only the transitions
pending→processing and processing→completed, but `add_solution` sets the
status of any known request to completed regardless of its current status,
so a single store operation moves `p1` from pending directly to completed —
a transition that is neither of the two permitted ones. -/
theorem status_skips_processing_counterexample :
    (dictGet c5State.requests "p1").map ReqEntry.status = some .pending ∧
    (dictGet ((StoreOp.report "p1" (.str "sol") 1).apply c5State).requests
      "p1").map ReqEntry.status = some .completed ∧
    ReqStatus.completed ≠ ReqStatus.processing ∧
    ReqStatus.completed ≠ ReqStatus.pending :=
  ⟨rfl, rfl, by decide, by decide⟩

/-- C5 amended: across every store operation (with submission ids fresh, as
`uuid.uuid4()` guarantees), each request's status only moves forward in the
order pending < processing < completed — it never reverses — though a
solution report may move a pending request directly to completed; every
present id stays present with its payload unchanged (id and payload are
immutable), and distinctness of ids is preserved. -/
theorem status_transitions_monotone (op : StoreOp) (st : CVRPBackendServer)
    (hwf : op.wf st) :
    (∀ id r, dictGet st.requests id = some r →
       ∃ r', dictGet (op.apply st).requests id = some r' ∧
         r.status.rank ≤ r'.status.rank ∧ r'.data = r.data) ∧
    ((st.requests.map Prod.fst).Nodup →
      ((op.apply st).requests.map Prod.fst).Nodup) := by
  cases op with
  | submit id0 d t =>
      have hfresh : dictGet st.requests id0 = none := hwf
      have happ : (StoreOp.submit id0 d t).apply st
          = { st with requests := st.requests ++ [(id0, ⟨d, .pending, t⟩)] } := by
        simp [StoreOp.apply, add_request, dictSet_fresh _ _ _ hfresh]
      constructor
      · intro id r hget
        have hne : id ≠ id0 := by
          intro hh
          rw [hh, hfresh] at hget
          exact Option.noConfusion hget
        refine ⟨r, ?_, le_refl _, rfl⟩
        rw [happ]
        have hne' : id0 ≠ id := Ne.symm hne
        have : dictGet (st.requests ++ [(id0, (⟨d, .pending, t⟩ : ReqEntry))]) id
            = dictGet st.requests id := by
          induction st.requests with
          | nil => simp [dictGet, hne']
          | cons p rest ih =>
              obtain ⟨k0, v0⟩ := p
              by_cases h0 : k0 = id <;> simp [dictGet, h0, ih]
        rw [this, hget]
      · intro hnodup
        rw [happ]
        have hmem : id0 ∉ st.requests.map Prod.fst :=
          (dictGet_none_iff_not_memKeys _ _).mp hfresh
        simp [List.nodup_append, hnodup, hmem]
  | claim =>
      constructor
      · intro id r hget
        obtain ⟨r', hget', hdata, hcase⟩ :=
          claimFirstPending_entry st.requests id r hget
        refine ⟨r', hget', ?_, hdata⟩
        rcases hcase with rfl | ⟨hp, rfl⟩
        · exact le_refl _
        · rw [hp]
          simp [ReqStatus.rank]
      · intro hnodup
        have : ((StoreOp.claim).apply st).requests.map Prod.fst
            = st.requests.map Prod.fst := by
          simp [StoreOp.apply, get_pending_request, claimFirstPending_keys]
        rw [this]
        exact hnodup
  | report id0 s t =>
      by_cases hkey : dictHasKey st.requests id0 = true
      · have happ : (StoreOp.report id0 s t).apply st
            = { st with
                requests := st.requests.map fun (p : String × ReqEntry) =>
                  (p.1, if p.1 = id0 then { p.2 with status := .completed }
                        else p.2)
                solutions := dictSet st.solutions id0 ⟨s, t⟩ } := by
          simp [StoreOp.apply, add_solution, hkey, completedMap_eq]
        constructor
        · intro id r hget
          rw [happ]
          refine ⟨if id = id0 then { r with status := .completed } else r, ?_, ?_, ?_⟩
          · rw [dictGet_mapVal (fun k q =>
              if k = id0 then { q with status := ReqStatus.completed } else q)
              st.requests id, hget]
            rfl
          · by_cases hid : id = id0
            · simp only [hid, if_pos]
              exact ReqStatus.rank_le_two r.status
            · simp [hid]
          · by_cases hid : id = id0 <;> simp [hid]
        · intro hnodup
          rw [happ]
          simpa [keys_mapVal] using hnodup
      · have happ : (StoreOp.report id0 s t).apply st = st := by
          simp [StoreOp.apply, add_solution, hkey]
        rw [happ]
        exact ⟨fun id r hget => ⟨r, hget, le_refl _, rfl⟩, id⟩

theorem status_transitions_monotone_witness :
    (∀ id r, dictGet c5State.requests id = some r →
       ∃ r', dictGet ((StoreOp.report "p1" (.str "sol") 1).apply c5State).requests
           id = some r' ∧
         r.status.rank ≤ r'.status.rank ∧ r'.data = r.data) ∧
    ((c5State.requests.map Prod.fst).Nodup →
      (((StoreOp.report "p1" (.str "sol") 1).apply c5State).requests.map
        Prod.fst).Nodup) :=
  status_transitions_monotone (StoreOp.report "p1" (.str "sol") 1) c5State
    trivial

/-! ## C6 — submission validation accepts the empty customer list -/

/-- The 202 body returned for an accepted submission. -/
def acceptBody (id : String) : Json :=
  .obj [("request_id", .str id), ("status", .str "submitted"),
        ("message", .str
          "Request submitted successfully. Use polling to check for solution.")]

/-- The submissions the code accepts: a truthy JSON object whose
`customers` value is a list — possibly empty — each of whose elements
passes the `id`/`demand`/`x`/`y` membership checks. -/
def validSubmission : Json → Bool
  | .obj fs =>
      !fs.isEmpty &&
      (match dictGet fs "customers" with
       | some (.arr cs) => checkCustomers cs 0 == .allOk
       | _ => false)
  | _ => false

/-- Error responses (4xx/5xx). -/
def Resp.isError : Resp → Bool
  | .badRequest _ => true
  | .notFound _ => true
  | .serverError => true
  | _ => false

/-- C6 counterexample: the claim says a payload with an empty customer list
is rejected with no state mutated, but the code's `for` loop over zero
customers vacuously passes, so `{'customers': []}` is accepted with a 202
and a pending request is inserted. -/
theorem submit_accepts_empty_customers_counterexample :
    pyGetItem (.obj [("customers", .arr [])]) "customers" = some (.arr []) ∧
    submit_solution none (some (.obj [("customers", .arr [])])) "id-1" 0
        initServer
      = (.accepted (acceptBody "id-1"),
         { initServer with requests :=
             [("id-1", ⟨.obj [("customers", .arr [])], .pending, 0⟩)] }) :=
  ⟨rfl, rfl⟩

/-- C6 amended: `Submit` accepts a payload — inserting a pending request
under the fresh id and answering 202 — if and only if the payload is a
(truthy) JSON object whose `customers` field holds a list, possibly empty,
in which every customer has `id`, `demand`, `x` and `y`; every other
payload is rejected synchronously with an error response and no state is
mutated. -/
theorem submit_validation (body : Json) (id : String) (t : ℚ)
    (st : CVRPBackendServer) :
    (validSubmission body = true →
       submit_solution none (some body) id t st
         = (.accepted (acceptBody id), (add_request st id body t).2)) ∧
    (validSubmission body = false →
       (submit_solution none (some body) id t st).2 = st ∧
       (submit_solution none (some body) id t st).1.isError = true) := by
  constructor
  · intro hv
    rcases body with _ | b | q | s | xs | fs
    · simp [validSubmission] at hv
    · simp [validSubmission] at hv
    · simp [validSubmission] at hv
    · simp [validSubmission] at hv
    · simp [validSubmission] at hv
    · simp only [validSubmission, Bool.and_eq_true] at hv
      obtain ⟨hne, hv2⟩ := hv
      rcases hget : dictGet fs "customers" with _ | v
      · rw [hget] at hv2
        simp at hv2
      · rw [hget] at hv2
        rcases v with _ | _ | _ | _ | cs | _ <;> simp at hv2
        have hhk : dictHasKey fs "customers" = true := by
          rw [dictHasKey_eq_isSome, hget]
          rfl
        have htr : Json.truthy (.obj fs) = true := by
          simpa [Json.truthy] using hne
        simp [submit_solution, htr, pyContains, hhk, pyGetItem, hget, hv2,
          acceptBody, add_request]
  · intro hv
    rcases body with _ | b | q | s | xs | fs
    · simp [submit_solution, Json.truthy, Resp.isError]
    · cases b
      · simp [submit_solution, Json.truthy, Resp.isError]
      · simp [submit_solution, Json.truthy, pyContains, Resp.isError]
    · by_cases hq : q = 0
      · simp [submit_solution, Json.truthy, hq, Resp.isError]
      · simp [submit_solution, Json.truthy, hq, pyContains, Resp.isError]
    · by_cases hs : s = ""
      · simp [submit_solution, Json.truthy, hs, Resp.isError]
      · cases hc : strContains s "customers"
        · simp [submit_solution, Json.truthy, hs, pyContains, hc, Resp.isError]
        · simp [submit_solution, Json.truthy, hs, pyContains, hc, pyGetItem,
            Resp.isError]
    · by_cases hx : xs.isEmpty
      · simp [submit_solution, Json.truthy, hx, Resp.isError]
      · cases hc : xs.any fun e => Json.beq e (.str "customers")
        · simp [submit_solution, Json.truthy, hx, pyContains, hc, Resp.isError]
        · simp [submit_solution, Json.truthy, hx, pyContains, hc, pyGetItem,
            Resp.isError]
    · by_cases hfs : fs.isEmpty
      · simp [submit_solution, Json.truthy, hfs, Resp.isError]
      · have htr : Json.truthy (.obj fs) = true := by simp [Json.truthy, hfs]
        rcases hget : dictGet fs "customers" with _ | v
        · have hhk : dictHasKey fs "customers" = false := by
            rw [dictHasKey_eq_isSome, hget]
            rfl
          simp [submit_solution, htr, pyContains, hhk, Resp.isError]
        · have hhk : dictHasKey fs "customers" = true := by
            rw [dictHasKey_eq_isSome, hget]
            rfl
          rcases v with _ | _ | _ | _ | cs | gs
          · simp [submit_solution, htr, pyContains, hhk, pyGetItem, hget,
              Resp.isError]
          · simp [submit_solution, htr, pyContains, hhk, pyGetItem, hget,
              Resp.isError]
          · simp [submit_solution, htr, pyContains, hhk, pyGetItem, hget,
              Resp.isError]
          · simp [submit_solution, htr, pyContains, hhk, pyGetItem, hget,
              Resp.isError]
          · rcases hck : checkCustomers cs 0 with _ | i
            · exfalso
              rw [validSubmission] at hv
              simp [hfs, hget, hck] at hv
            · simp [submit_solution, htr, pyContains, hhk, pyGetItem, hget,
                hck, Resp.isError]
            · simp [submit_solution, htr, pyContains, hhk, pyGetItem, hget,
                hck, Resp.isError]
          · simp [submit_solution, htr, pyContains, hhk, pyGetItem, hget,
              Resp.isError]

/-- A valid one-customer payload (the spec's scenario customer `C1`). -/
def c6Valid : Json :=
  .obj [("customers", .arr [.obj [("id", .str "C1"), ("demand", .num 3),
                                  ("x", .num 1), ("y", .num 1)]])]

/-- A malformed payload: a customer missing `y`. -/
def c6Invalid : Json :=
  .obj [("customers", .arr [.obj [("id", .str "C1"), ("demand", .num 3),
                                  ("x", .num 1)]])]

theorem submit_validation_witness :
    (submit_solution none (some c6Valid) "id-9" 0 initServer
      = (.accepted (acceptBody "id-9"), (add_request initServer "id-9" c6Valid 0).2)) ∧
    ((submit_solution none (some c6Invalid) "id-9" 0 initServer).2 = initServer ∧
     (submit_solution none (some c6Invalid) "id-9" 0 initServer).1.isError = true) :=
  ⟨(submit_validation c6Valid "id-9" 0 initServer).1 rfl,
   (submit_validation c6Invalid "id-9" 0 initServer).2 rfl⟩

/-! ## C7 — one-shot config mailbox, sequential behaviour -/

/-- C7: after a successful `confirm_vehicles` stores a configuration, the
first `poll_vehicle_config` returns it and clears the slot, a second
immediate poll returns the bodyless 204; polling an empty slot always
returns 204 and mutates nothing; and a new successful `confirm_vehicles`
overwrites whatever configuration is in the slot, consumed or not. -/
theorem one_shot_mailbox :
    (∀ (st : CVRPBackendServer) (cfg : VehicleConfig),
       st.vehicle_config = some cfg →
       poll_vehicle_config st =
         (.ok (.obj [("vehicles", .arr cfg.vehicles), ("depot", cfg.depot),
                     ("timestamp", jsonOfOptQ st.vehicle_config_timestamp)]),
          { st with vehicle_config := none }) ∧
       poll_vehicle_config { st with vehicle_config := none }
         = (.noContent, { st with vehicle_config := none })) ∧
    (∀ st : CVRPBackendServer, st.vehicle_config = none →
       poll_vehicle_config st = (.noContent, st)) ∧
    (∀ (st : CVRPBackendServer) (fs : List (String × Json))
       (vehicles : List Json) (now : ℚ),
       Json.truthy (.obj fs) = true →
       dictGet fs "vehicles" = some (.arr vehicles) →
       vehicles.isEmpty = false →
       checkVehicles vehicles = .allOk →
       (confirm_vehicles (some (.obj fs)) now st).2
         = { st with
             vehicle_config := some ⟨vehicles,
               dictGetD fs "depot"
                 (.obj [("name", .str "Depot"), ("x", .num 0), ("y", .num 0)])⟩
             vehicle_config_timestamp := some now }) := by
  refine ⟨?_, ?_, ?_⟩
  · intro st cfg hcfg
    constructor
    · simp [poll_vehicle_config, hcfg]
    · simp [poll_vehicle_config]
  · intro st hnone
    simp [poll_vehicle_config, hnone]
  · intro st fs vehicles now htr hget hne hok
    have hhk : dictHasKey fs "vehicles" = true := by
      rw [dictHasKey_eq_isSome, hget]
      rfl
    rcases hnames : vehicleNames vehicles with _ | names <;>
      simp [confirm_vehicles, htr, pyContains, hhk, pyGetItem, hget, hne, hok,
        hnames]

/-- The spec's two-vehicle scenario configuration body. -/
def c7V1 : Json :=
  .obj [("name", .str "V1"), ("capacity", .num 10), ("maxDistance", .num 100)]

def c7V2 : Json :=
  .obj [("name", .str "V2"), ("capacity", .num 8), ("maxDistance", .num 80)]

def c7Body : Json := .obj [("vehicles", .arr [c7V1, c7V2])]

/-- The state after the two-vehicle configuration is confirmed at time 5. -/
def c7SetSt : CVRPBackendServer :=
  { initServer with
      vehicle_config := some ⟨[c7V1, c7V2],
        .obj [("name", .str "Depot"), ("x", .num 0), ("y", .num 0)]⟩
      vehicle_config_timestamp := some 5 }

theorem one_shot_mailbox_witness :
    (confirm_vehicles (some c7Body) 5 initServer).2 = c7SetSt ∧
    poll_vehicle_config c7SetSt =
      (.ok (.obj [("vehicles", .arr [c7V1, c7V2]),
                  ("depot", .obj [("name", .str "Depot"), ("x", .num 0),
                                  ("y", .num 0)]),
                  ("timestamp", .num 5)]),
       { c7SetSt with vehicle_config := none }) ∧
    poll_vehicle_config { c7SetSt with vehicle_config := none }
      = (.noContent, { c7SetSt with vehicle_config := none }) := by
  have hset := one_shot_mailbox.2.2 initServer [("vehicles", .arr [c7V1, c7V2])]
    [c7V1, c7V2] 5 rfl rfl rfl rfl
  have htake := (one_shot_mailbox.1 c7SetSt
    ⟨[c7V1, c7V2], .obj [("name", .str "Depot"), ("x", .num 0), ("y", .num 0)]⟩
    rfl)
  exact ⟨hset, htake.1, htake.2⟩

/-! ## C10 — vehicle-position update: truthiness, defaults, overwrite -/

/-- C10 counterexample: a JSON body that does contain `vehicle_name` — with
the falsy value `""` — is rejected with a 400 and no telemetry is stored,
so "accepts any JSON body that contains a vehicle_name" fails as stated:
the value must also be truthy. -/
theorem update_position_falsy_name_counterexample :
    dictGet [("vehicle_name", Json.str ""), ("x", Json.num 1)] "vehicle_name"
      = some (.str "") ∧
    update_vehicle_position
        (some (.obj [("vehicle_name", .str ""), ("x", .num 1)])) 0 initServer
      = (.badRequest (errBody "vehicle_name required"), initServer) :=
  ⟨rfl, rfl⟩

/-- Hashable JSON values (usable as Python dict keys). -/
def Json.hashable : Json → Bool
  | .arr _ => false
  | .obj _ => false
  | _ => true

/-- C10 amended: the vehicle-position update accepts any JSON object body
whose `vehicle_name` is present with a truthy (hashable) value; when every
other telemetry field is absent, the stored entry takes the defaults —
`x = 0.0`, `y = 0.0`, `status = 'idle'`, `route_id`, `target_x` and
`target_y` null — the entry overwrites the vehicle's previous one, and the
call reports success. -/
theorem update_position_defaults (fs : List (String × Json)) (v : Json)
    (now : ℚ) (st : CVRPBackendServer)
    (hname : dictGet fs "vehicle_name" = some v)
    (htruthy : v.truthy = true)
    (hhash : v.hashable = true)
    (hx : dictGet fs "x" = none) (hy : dictGet fs "y" = none)
    (hstatus : dictGet fs "status" = none)
    (hroute : dictGet fs "route_id" = none)
    (htx : dictGet fs "target_x" = none)
    (hty : dictGet fs "target_y" = none) :
    update_vehicle_position (some (.obj fs)) now st
      = (.ok (.obj [("success", .bool true), ("vehicle", v)]),
         { st with vehicle_positions :=
             (jdictSet st.vehicle_positions v
               ⟨.num 0, .num 0, .str "idle", .null, .null, .null, now⟩) }) := by
  have hfs : fs.isEmpty = false := by
    cases fs with
    | nil => simp [dictGet] at hname
    | cons p rest => rfl
  have htr : Json.truthy (.obj fs) = true := by simp [Json.truthy, hfs]
  rcases v with _ | b | q | s | xs | gs
  · simp [Json.truthy] at htruthy
  · simp [update_vehicle_position, htr, hname, htruthy, dictGetD, hx, hy,
      hstatus, hroute, htx, hty]
  · simp [update_vehicle_position, htr, hname, htruthy, dictGetD, hx, hy,
      hstatus, hroute, htx, hty]
  · simp [update_vehicle_position, htr, hname, htruthy, dictGetD, hx, hy,
      hstatus, hroute, htx, hty]
  · simp [Json.hashable] at hhash
  · simp [Json.hashable] at hhash

theorem update_position_defaults_witness :
    update_vehicle_position (some (.obj [("vehicle_name", .str "V1")])) 7
        initServer
      = (.ok (.obj [("success", .bool true), ("vehicle", .str "V1")]),
         { initServer with vehicle_positions :=
             (jdictSet initServer.vehicle_positions (.str "V1")
               ⟨.num 0, .num 0, .str "idle", .null, .null, .null, 7⟩) }) :=
  update_position_defaults [("vehicle_name", .str "V1")] (.str "V1") 7
    initServer rfl (by decide) rfl rfl rfl rfl rfl rfl rfl

/-! ## Log Event Extractor (`frontend 2/app.py`)

The regex searches of the extractor are embedded as anchored character-list
matchers driven by a generic leftmost-first scanner (`re.search` tries the
pattern anchored at every position, leftmost success first). All patterns
here alternate character classes with literals that are disjoint from them,
so greedy matching coincides with maximal munch and no backtracking is
needed — except for the one `.*` gap, handled rightmost-first below. -/

/-- Characters matched by the regex class `\s` (ASCII). -/
def isPySpace (c : Char) : Bool :=
  c = ' ' || c = '\t' || c = '\n' || c = '\r' || c = '\x0b' || c = '\x0c'

/-- Characters matched by the class `[0-9.]`. -/
def isDigitDot (c : Char) : Bool := c.isDigit || c = '.'

/-- Does `text` start with `pat`? -/
def beginsWith : List Char → List Char → Bool
  | [], _ => true
  | _ :: _, [] => false
  | p :: ps, c :: cs => p = c && beginsWith ps cs

/-- `re.search`: try the anchored matcher at every position, leftmost
success wins. -/
def scanFirst {α : Type} (f : List Char → Option α) : List Char → Option α
  | [] => f []
  | cs@(_ :: rest) =>
      match f cs with
      | some a => some a
      | none => scanFirst f rest

/-- Every anchored match, in positional (leftmost-first) order. -/
def scanAll {α : Type} (f : List Char → Option α) : List Char → List α
  | [] => (f []).toList
  | cs@(_ :: rest) =>
      match f cs with
      | some a => a :: scanAll f rest
      | none => scanAll f rest

/-- The leftmost match is the head of the list of all matches. -/
theorem scanFirst_eq_head {α : Type} (f : List Char → Option α)
    (cs : List Char) : scanFirst f cs = (scanAll f cs).head? := by
  induction cs with
  | nil =>
      simp only [scanFirst, scanAll]
      rcases f [] with _ | a <;> rfl
  | cons c rest ih =>
      simp only [scanFirst, scanAll]
      rcases f (c :: rest) with _ | a
      · simpa using ih
      · rfl

/-- Anchored `\(([0-9.]+),\s*([0-9.]+)\)`: the two captured groups. -/
def coordAt (cs : List Char) : Option (List Char × List Char) :=
  match cs with
  | '(' :: rest =>
      let g1 := rest.takeWhile isDigitDot
      if g1.isEmpty then none
      else
        match rest.drop g1.length with
        | ',' :: rest2 =>
            let rest3 := rest2.dropWhile isPySpace
            let g2 := rest3.takeWhile isDigitDot
            if g2.isEmpty then none
            else
              match rest3.drop g2.length with
              | ')' :: _ => some (g1, g2)
              | _ => none
        | _ => none
  | _ => none

/-- Anchored `\[([^\]]+)\]` (used with `re.match`, i.e. only at the start
of the line): the captured timestamp text. -/
def timeAt (cs : List Char) : Option (List Char) :=
  match cs with
  | '[' :: rest =>
      let g := rest.takeWhile (· ≠ ']')
      if g.isEmpty then none
      else
        match rest.drop g.length with
        | ']' :: _ => some g
        | _ => none
  | _ => none

/-- Anchored `customer\s+([^\s(]+)` under `re.IGNORECASE`. -/
def customerAt (cs : List Char) : Option (List Char) :=
  if beginsWith "customer".toList (cs.map Char.toLower) then
    let rest := cs.drop 8
    let sp := rest.takeWhile isPySpace
    if sp.isEmpty then none
    else
      let g := (rest.drop sp.length).takeWhile fun c => !isPySpace c && c ≠ '('
      if g.isEmpty then none else some g
  else none

/-- Digit run to a number (`int` semantics on `\d+` captures). -/
def digitsToNat (ds : List Char) : ℕ :=
  ds.foldl (fun n c => n * 10 + (c.toNat - 48)) 0

/-- Python `float()` applied to a `[0-9.]+` capture: defined exactly when
the text has at least one digit and at most one dot (`"3"`, `"3."`, `".5"`,
`"3.5"`); `"3..5"` or `"."` raise `ValueError` (`none`). The value is the
exact decimal, modelled as a rational. -/
def parsePyFloat (s : List Char) : Option ℚ :=
  if s.all isDigitDot && s.any Char.isDigit && s.count '.' ≤ 1 then
    let intPart := s.takeWhile (· ≠ '.')
    let frac := (s.dropWhile (· ≠ '.')).drop 1
    some (mkRat (digitsToNat intPart * 10 ^ frac.length + digitsToNat frac)
      (10 ^ frac.length))
  else none

/-- One movement entry of `get_da_movements` (`positions.append({...})`). -/
structure MovementEvent where
  timestamp : Option String
  x : ℚ
  y : ℚ
  event : String
  customer : Option String
deriving Repr, DecidableEq

/-- A raised Python exception (here: `ValueError` from `float()`). -/
inductive PyErr where
  | valueError
deriving Repr, DecidableEq

/-- The `position_keywords` list of `get_da_movements`. -/
def position_keywords : List String :=
  ["ARRIVED at customer", "RETURNED to depot", "Moving to", "Starting route",
   "at (", "Position"]

/-- The position-tracking body of `get_da_movements`'s per-line loop: if the
line contains a position keyword and the coordinate pattern matches, build
the movement entry (classifying `arrival` / `depot` / `route_start` /
`moving` and capturing the customer for arrivals); a keyword line whose
coordinates do not match yields no entry; a coordinate capture that is not
a valid float raises. -/
def extract_movement_line (line : String) : Except PyErr (Option MovementEvent) :=
  if position_keywords.any (strContains line) then
    match scanFirst coordAt line.toList with
    | none => .ok none
    | some (g1, g2) =>
        match parsePyFloat g1, parsePyFloat g2 with
        | some x, some y =>
            let timestamp := (timeAt line.toList).map String.mk
            if strContains line "ARRIVED at customer" then
              .ok (some ⟨timestamp, x, y, "arrival",
                         (scanFirst customerAt line.toList).map String.mk⟩)
            else if strContains line "RETURNED to depot" then
              .ok (some ⟨timestamp, x, y, "depot", none⟩)
            else if strContains line "Starting route" then
              .ok (some ⟨timestamp, x, y, "route_start", none⟩)
            else
              .ok (some ⟨timestamp, x, y, "moving", none⟩)
        | _, _ => .error .valueError
  else .ok none

/-- The `positions` list accumulated over `content.split('\n')`: an
exception aborts the loop, keeping the entries gathered so far. -/
def get_da_movements_lines : List String → List MovementEvent
  | [] => []
  | l :: ls =>
      match extract_movement_line l with
      | .error _ => []
      | .ok none => get_da_movements_lines ls
      | .ok (some e) => e :: get_da_movements_lines ls

instance : DecidableEq (Except PyErr (Option MovementEvent)) := fun a b =>
  match a, b with
  | .ok x, .ok y =>
      if h : x = y then .isTrue (by rw [h])
      else .isFalse (by intro hh; injection hh; exact h (by assumption))
  | .error x, .error y =>
      if h : x = y then .isTrue (by rw [h])
      else .isFalse (by intro hh; injection hh; exact h (by assumption))
  | .ok _, .error _ => .isFalse (by intro hh; exact Except.noConfusion hh)
  | .error _, .ok _ => .isFalse (by intro hh; exact Except.noConfusion hh)

/-! ## C8 — arrival-event extraction and malformed-coordinate skipping -/

/-- C8: the extractor maps the spec's arrival line to a movement event of
kind arrival (the spec's `ArrivalAtCustomer`) with `x = 3.5` (`mkRat 7 2`),
`y = 7.2` (`mkRat 36 5`) and customer `C5`; and every line that contains a
position keyword but whose text nowhere matches the coordinate pattern
`\(([0-9.]+),\s*([0-9.]+)\)` yields no event and no error, and leaves the
extraction of all subsequent lines unchanged. -/
theorem arrival_line_extraction :
    extract_movement_line
        "[2024-01-01T10:00:00] DA1 ARRIVED at customer C5 at (3.5, 7.2)"
      = .ok (some ⟨some "2024-01-01T10:00:00", mkRat 7 2, mkRat 36 5,
                   "arrival", some "C5"⟩) ∧
    (∀ (line : String) (rest : List String),
       position_keywords.any (strContains line) = true →
       scanFirst coordAt line.toList = none →
       extract_movement_line line = .ok none ∧
       get_da_movements_lines (line :: rest) = get_da_movements_lines rest) := by
  refine ⟨by decide, ?_⟩
  intro line rest hkw hcoord
  have hcoord' : scanFirst coordAt line.data = none := hcoord
  have h1 : extract_movement_line line = .ok none := by
    simp [extract_movement_line, hkw, hcoord, hcoord']
  exact ⟨h1, by simp [get_da_movements_lines, h1]⟩

theorem arrival_line_extraction_witness :
    extract_movement_line
        "[2024-01-01T10:00:01] DA1 ARRIVED at customer C5 at (a, b)"
      = .ok none ∧
    get_da_movements_lines
        ["[2024-01-01T10:00:01] DA1 ARRIVED at customer C5 at (a, b)",
         "[2024-01-01T10:00:02] DA1 ARRIVED at customer C6 at (1.5, 2.5)"]
      = get_da_movements_lines
        ["[2024-01-01T10:00:02] DA1 ARRIVED at customer C6 at (1.5, 2.5)"] :=
  arrival_line_extraction.2
    "[2024-01-01T10:00:01] DA1 ARRIVED at customer C5 at (a, b)"
    ["[2024-01-01T10:00:02] DA1 ARRIVED at customer C6 at (1.5, 2.5)"]
    (by decide) (by decide)

/-! ## System-state view (`get_system_state`) -/

/-- `afterLit lit cs`: the rest of `cs` after a literal prefix. -/
def afterLit (lit : String) (cs : List Char) : Option (List Char) :=
  if beginsWith lit.toList cs then some (cs.drop lit.toList.length) else none

/-- Anchored `Queue size:\s*(\d+)`: the captured number. -/
def queueSizeAt (cs : List Char) : Option ℕ :=
  match afterLit "Queue size:" cs with
  | none => none
  | some rest =>
      let ds := (rest.dropWhile isPySpace).takeWhile Char.isDigit
      if ds.isEmpty then none else some (digitsToNat ds)

/-- Anchored `Unserved customers:\s*(\d+)`: the captured number. -/
def unservedAt (cs : List Char) : Option ℕ :=
  match afterLit "Unserved customers:" cs with
  | none => none
  | some rest =>
      let ds := (rest.dropWhile isPySpace).takeWhile Char.isDigit
      if ds.isEmpty then none else some (digitsToNat ds)

/-- Anchored `route from queue:\s*([^\s]+)`: the captured route id. -/
def markerCapture (cs : List Char) : Option (List Char) :=
  match afterLit "route from queue:" cs with
  | none => none
  | some rest =>
      let g := (rest.dropWhile isPySpace).takeWhile fun c => !isPySpace c
      if g.isEmpty then none else some g

/-- All captures of `route from queue:...` whose start lies in the current
line (the `.*` gap of the pattern cannot cross a newline), leftmost
first. -/
def sameLineCaptures : List Char → List (List Char)
  | [] => (markerCapture []).toList
  | c :: rest =>
      (markerCapture (c :: rest)).toList ++
        (if c = '\n' then [] else sameLineCaptures rest)

/-- Anchored `Processing.*route from queue:\s*([^\s]+)`: the greedy `.*`
makes the rightmost same-line viable marker win. -/
def procAt (cs : List Char) : Option (List Char) :=
  match afterLit "Processing" cs with
  | none => none
  | some rest => (sameLineCaptures rest).getLast?

/-- The per-dispatcher summary of `get_system_state` (the fields the claim
describes; the handler also counts completed routes via `re.findall`, which
the claim does not touch and which is not modelled). The `elif 'RETURNED to
depot' in content.split('\n')[-50:]` branch of the code only ever assigns
`'idle'`, the value `status` already holds at that point, so it is a
semantic no-op and is not modelled either. -/
structure DaState where
  status : String
  queue_size : ℕ
  current_route : Option String
deriving Repr, DecidableEq

/-- The DA branch of `get_system_state`: `re.search` (first match) for
`Queue size:` and for `Processing.*route from queue:`; status `executing`
when the route search matches anywhere, else `queued` when the reported
queue size is positive, else `idle`. -/
def da_state (content : String) : DaState :=
  let queue_size := (scanFirst queueSizeAt content.toList).getD 0
  match scanFirst procAt content.toList with
  | some r => ⟨"executing", queue_size, some (String.mk r)⟩
  | none =>
      if queue_size > 0 then ⟨"queued", queue_size, none⟩
      else ⟨"idle", queue_size, none⟩

/-- The MRA unserved-customer field of `get_system_state`: `re.search`
(first match) for `Unserved customers:`. -/
def mra_unserved (content : String) : ℕ :=
  (scanFirst unservedAt content.toList).getD 0

/-! ## C9 — the system-state view takes the first match, not the most
recent one -/

/-- Modelled from the claim's words ("takes the most recent match in the
log"): the last `Queue size:` match. -/
def specMostRecentQueueSize (content : String) : ℕ :=
  ((scanAll queueSizeAt content.toList).getLast?).getD 0

/-- A queue-related marker at this position: `some true` for the
claimed-from-queue marker, `some false` for a queue-size report. -/
def queueMarkerAt (cs : List Char) : Option Bool :=
  match procAt cs with
  | some _ => some true
  | none =>
      match queueSizeAt cs with
      | some _ => some false
      | none => none

/-- Modelled from the claim's words: Executing if a claimed-from-queue
marker is the most recent queue-related marker, else Queued if the (most
recent) queue size is greater than 0, else Idle. -/
def specDaStatusMostRecent (content : String) : String :=
  if (scanAll queueMarkerAt content.toList).getLast? = some true then
    "executing"
  else if specMostRecentQueueSize content > 0 then "queued"
  else "idle"

/-- A dispatcher log whose queue-size reports are `2` and then, most
recently, `0`. -/
def c9Log : String :=
  "[t1] Route added to queue. Queue size: 2\n[t2] Queue size: 0"

/-- C9 counterexample: `get_system_state` uses `re.search`, which returns
the FIRST match, not the most recent one. On a log whose queue-size
reports are 2 and then 0, the code reports queue size 2 and status
`queued`, while the claim's most-recent rule gives queue size 0 and
status Idle. -/
theorem system_state_most_recent_counterexample :
    da_state c9Log = ⟨"queued", 2, none⟩ ∧
    scanAll queueSizeAt c9Log.toList = [2, 0] ∧
    specMostRecentQueueSize c9Log = 0 ∧
    specDaStatusMostRecent c9Log = "idle" ∧
    (da_state c9Log).queue_size ≠ specMostRecentQueueSize c9Log ∧
    (da_state c9Log).status ≠ specDaStatusMostRecent c9Log := by
  refine ⟨by decide, by decide, by decide, by decide, by decide, by decide⟩

/-- C9 amended: the per-agent summary takes the FIRST match in the log for
the single-valued fields — current queue size, current route id, and the
MRA's unserved-customer count — and the dispatcher status is Executing if
the `Processing ... route from queue:` marker matches anywhere in the log
(regardless of what is most recent), else Queued if the first-match queue
size is greater than 0, else Idle. -/
theorem system_state_takes_first_match (content : String) :
    (da_state content).queue_size
      = ((scanAll queueSizeAt content.toList).head?).getD 0 ∧
    (da_state content).current_route
      = ((scanAll procAt content.toList).head?).map String.mk ∧
    (da_state content).status
      = (if ((scanAll procAt content.toList).head?).isSome then "executing"
         else if ((scanAll queueSizeAt content.toList).head?).getD 0 > 0 then
           "queued"
         else "idle") ∧
    mra_unserved content = ((scanAll unservedAt content.toList).head?).getD 0 := by
  have hq : scanFirst queueSizeAt content.data
      = (scanAll queueSizeAt content.data).head? := scanFirst_eq_head _ _
  have hp : scanFirst procAt content.data
      = (scanAll procAt content.data).head? := scanFirst_eq_head _ _
  have hu : scanFirst unservedAt content.data
      = (scanAll unservedAt content.data).head? := scanFirst_eq_head _ _
  rcases hcase : (scanAll procAt content.data).head? with _ | r
  · rw [hcase] at hp
    refine ⟨?_, ?_, ?_, by simp [mra_unserved, hu]⟩ <;>
      by_cases hqz :
          ((scanAll queueSizeAt content.data).head?).getD 0 > 0 <;>
        simp [da_state, hp, hq, hcase, hqz]
  · rw [hcase] at hp
    exact ⟨by simp [da_state, hp, hq], by simp [da_state, hp, hcase],
           by simp [da_state, hp, hcase], by simp [mra_unserved, hu]⟩

end CVRP
